import Mathlib

/-!
Verification development for `openwrt-autoreboot` (src/src/main.rs).

The program is a single linear procedure (`async_main`): resolve credentials
(CLI or `config.toml`), log in, fetch a status JSON document, run a two-stage
threshold check on `cpuusage` / `loadavg`, and conditionally perform a two-step
reboot handshake (GET the reboot page, extract a token with the regex
`token: '(?P<token>[\da-f]{32})'`, POST the token).

The embedding below models the decision flow of `async_main` as a pure
function from the environment's responses (the status JSON map and the reboot
page body) to the list of HTTP requests the program issues and the final
outcome of the process (normal exit 0 versus an `unwrap` panic, which exits
non-zero).  Network transport errors are outside the model: every claim is
about behaviour given delivered responses.
-/

/-- A serde_json `Value`.  A JSON number is abstracted by its `as_i64()`
projection (`some v` when the number is an integer representable as a signed
64-bit value, `none` for fractional numbers and integers outside the `i64`
range), which is the only view of numbers `main.rs` uses. -/
inductive JsonValue where
  | null
  | bool (b : Bool)
  | num (asI64 : Option Int)
  | str (s : String)
  | arr (elems : List JsonValue)
  | obj (fields : List (String × JsonValue))

/-- The ASCII apostrophe, written by code point to keep literals readable. -/
def squote : Char := Char.ofNat 39

/-- The newline character fed to `split_once("\n")`. -/
def nlChar : Char := Char.ofNat 10

/-- Rust `str::split_once` specialised to the single-character separator the
program uses: split at the first occurrence of `c`, or `none` when `c` does
not occur. -/
def splitOnceChar : List Char → Char → Option (List Char × List Char)
  | [], _ => none
  | x :: xs, c =>
    if x = c then some ([], xs)
    else (splitOnceChar xs c).map (fun p => (x :: p.1, p.2))

/-- Digit run of Rust `i32::from_str`: at least one character, all ASCII
digits, read as a decimal natural number. -/
def digitsToNat (cs : List Char) : Option Nat :=
  match cs with
  | [] => none
  | _ =>
    if cs.all Char.isDigit then
      some (cs.foldl (fun a c => a * 10 + (c.toNat - 48)) 0)
    else none

/-- Rust `"<s>".parse::<i32>()`: optional sign, decimal digits, value within
the signed 32-bit range; every other input is an error. -/
def parseI32 (s : String) : Option Int :=
  match s.data with
  | [] => none
  | c :: rest =>
    let signed : Bool × List Char :=
      if c = Char.ofNat 45 then (true, rest)
      else if c = Char.ofNat 43 then (false, rest)
      else (false, c :: rest)
    match digitsToNat signed.2 with
    | none => none
    | some n =>
      let v : Int := if signed.1 then -(n : Int) else (n : Int)
      if -2147483648 ≤ v ∧ v ≤ 2147483647 then some v else none

/-- The `cpuusage` extraction of `async_main` (main.rs lines 118-120):
`cpu.split_once("\n").unwrap()` followed by `usage.parse::<i32>().unwrap()`.
`Except.error` marks an `unwrap` panic (non-zero process exit). -/
def cpuExtract (cpu : String) : Except Unit Int :=
  match splitOnceChar cpu.data nlChar with
  | none => Except.error ()
  | some (usage, _) =>
    match parseI32 (String.mk usage) with
    | none => Except.error ()
    | some v => Except.ok v

/-- The `load_avg.iter().map(...).all(|x| x)` check of `async_main`
(main.rs lines 127-141), with Rust's lazy iterator semantics: elements are
examined left to right and the first `false` stops the traversal.  A number
element calls `n.as_i64().unwrap()` — `Except.error` marks that panic — and
contributes `value > 65000`; any non-number element contributes `false`. -/
def loadavgAll : List JsonValue → Except Unit Bool
  | [] => Except.ok true
  | x :: xs =>
    match x with
    | JsonValue.num n =>
      match n with
      | some v => if v > 65000 then loadavgAll xs else Except.ok false
      | none => Except.error ()
    | _ => Except.ok false

/-- The literal part `token: '` of the token regex, apostrophe included. -/
def tokenLit : List Char := "token: ".data ++ [squote]

/-- The character class `[\da-f]` of the token regex (`\d` taken as the ASCII
digits, the only digits the claims involve). -/
def classChar (c : Char) : Bool := c.isDigit || (Char.ofNat 97 ≤ c && c ≤ Char.ofNat 102)

/-- Whether the token regex `token: '[\da-f]{32}'` matches at the head of
`s`; on a match, returns the 32 captured characters. -/
def matchTokenHere (s : List Char) : Option (List Char) :=
  if s.take 8 = tokenLit then
    let rest := s.drop 8
    let tok := rest.take 32
    if tok.length = 32 then
      if tok.all classChar then
        match rest.drop 32 with
        | c :: _ => if c = squote then some tok else none
        | [] => none
      else none
    else none
  else none

/-- `token_exp.captures(response)` followed by reading the `token` group:
the leftmost match of the token regex, scanning positions left to right. -/
def findToken : List Char → Option (List Char)
  | [] => none
  | c :: rest =>
    match matchTokenHere (c :: rest) with
    | some t => some t
    | none => findToken rest

/-- One HTTP request issued by `async_main`, identified by endpoint; the
reboot confirmation carries the token form field it submits. -/
inductive Request where
  | login
  | statusFetch
  | rebootGet
  | rebootCall (token : String)
  deriving DecidableEq, Repr

/-- Process outcome: `ok` is a normal `Ok(())` return (exit code 0),
`panicked` is an `unwrap` panic (non-zero exit). -/
inductive Outcome where
  | ok
  | panicked
  deriving DecidableEq, Repr

/-- The requests issued by one run together with its outcome. -/
structure RunOutcome where
  requests : List Request
  outcome : Outcome
  deriving DecidableEq, Repr

/-- The environment's responses: the status JSON object (a string-keyed map)
and the HTML body returned by the reboot-page GET. -/
structure ResponseEnv where
  status : List (String × JsonValue)
  rebootPage : String

/-- The reboot handshake of `async_main` (main.rs lines 143-160): GET the
reboot page, `token_exp.captures(...).unwrap()` — a panic when there is no
match — then POST the captured token to `reboot/call`. -/
def rebootPhase (page : String) : RunOutcome :=
  match findToken page.data with
  | none => ⟨[Request.rebootGet], Outcome.panicked⟩
  | some tok => ⟨[Request.rebootGet, Request.rebootCall (String.mk tok)], Outcome.ok⟩

/-- The threshold stage of `async_main` (main.rs lines 121-162): with the
parsed CPU usage in hand, when it exceeds 20 and `loadavg` is an array whose
lazy all-check yields `true`, run the reboot handshake; a missing or
non-array `loadavg` falls through silently. -/
def thresholdPhase (env : ResponseEnv) (cpuUsage : Int) : RunOutcome :=
  if cpuUsage > 20 then
    match List.lookup "loadavg" env.status with
    | some (JsonValue.arr loadAvg) =>
      match loadavgAll loadAvg with
      | Except.error _ => ⟨[], Outcome.panicked⟩
      | Except.ok true => rebootPhase env.rebootPage
      | Except.ok false => ⟨[], Outcome.ok⟩
    | _ => ⟨[], Outcome.ok⟩
  else ⟨[], Outcome.ok⟩

/-- The response-processing flow of `async_main` (main.rs lines 104-170):
after the login POST and the status GET, a `cpuusage` entry that is a string
is split and parsed (each `unwrap` a potential panic) and the threshold stage
runs; a missing or non-string `cpuusage` falls through to `Ok(())`. -/
def statusRun (env : ResponseEnv) : RunOutcome :=
  match List.lookup "cpuusage" env.status with
  | some (JsonValue.str cpu) =>
    match cpuExtract cpu with
    | Except.error _ => ⟨[Request.login, Request.statusFetch], Outcome.panicked⟩
    | Except.ok v =>
      ⟨[Request.login, Request.statusFetch] ++ (thresholdPhase env v).requests,
        (thresholdPhase env v).outcome⟩
  | _ => ⟨[Request.login, Request.statusFetch], Outcome.ok⟩

/-- CLI argument values, as clap's `ArgMatches` exposes them for the three
positional arguments `host`, `user`, `password`. -/
structure ArgMatches where
  host : Option String
  user : Option String
  password : Option String
  deriving DecidableEq, Repr

/-- The `server` section of the configuration: host, user, password. -/
structure Server where
  host : String
  user : String
  password : String
  deriving DecidableEq, Repr

/-- The parsed `config.toml` contents. -/
structure Config where
  server : Server
  deriving DecidableEq, Repr

/-- `Server::try_from_matches` (main.rs lines 69-76): return `none` when
`password` is absent, otherwise build the server from `host`, `user`,
`password`, each read with `.unwrap()` — `Except.error` marks that panic
(with clap positionals it is unreachable, but the embedding keeps it). -/
def tryFromMatches (m : ArgMatches) : Except Unit (Option Server) :=
  match m.password with
  | none => Except.ok none
  | some p =>
    match m.host with
    | none => Except.error ()
    | some h =>
      match m.user with
      | none => Except.error ()
      | some u => Except.ok (some ⟨h, u, p⟩)

/-- How credential resolution ends: an `unwrap` panic, a `Config::load`
error propagated by `?`, or a server plus the fact whether `config.toml`
was read. -/
inductive ResolveResult where
  | panic
  | configError
  | ok (server : Server) (fileRead : Bool)
  deriving DecidableEq, Repr

/-- Credential resolution of `async_main` (main.rs lines 96-101): use
`Server::try_from_matches` when it yields a server, otherwise read
`config.toml` (`cfg = none` models a load/parse failure) and take its
`server` section. -/
def resolveServer (m : ArgMatches) (cfg : Option Config) : ResolveResult :=
  match tryFromMatches m with
  | Except.error _ => ResolveResult.panic
  | Except.ok (some s) => ResolveResult.ok s false
  | Except.ok none =>
    match cfg with
    | none => ResolveResult.configError
    | some c => ResolveResult.ok c.server true

/-! ### Helper lemmas about the threshold check -/

/-- Over an array of `i64`-representable numbers, the lazy all-check returns
`ok true` exactly when every element exceeds 65000. -/
theorem loadavgAll_ok_true_iff (l : List JsonValue)
    (h : ∀ x ∈ l, ∃ v, x = JsonValue.num (some v)) :
    loadavgAll l = Except.ok true ↔
      ∀ x ∈ l, ∀ v, x = JsonValue.num (some v) → v > 65000 := by
  induction l with
  | nil => simp [loadavgAll]
  | cons x xs ih =>
    obtain ⟨v, rfl⟩ := h x (List.mem_cons_self x xs)
    have hxs := ih fun y hy => h y (List.mem_cons_of_mem _ hy)
    by_cases hv : v > 65000
    · simp only [loadavgAll, if_pos hv, hxs, List.mem_cons]
      constructor
      · rintro hall y (rfl | hy) w hw
        · exact (by injection hw with h1; injection h1 with h2; exact h2 ▸ hv)
        · exact hall y hy w hw
      · intro hall y hy w hw
        exact hall y (Or.inr hy) w hw
    · simp only [loadavgAll, if_neg hv]
      constructor
      · intro hfalse; cases hfalse
      · intro hall
        exact absurd (hall _ (List.mem_cons_self _ _) v rfl) hv

/-- A non-number element anywhere in the array keeps the lazy all-check from
returning `ok true` (it returns `ok false`, or panics on an earlier
non-`i64` number). -/
theorem loadavgAll_ne_true_of_nonnum (l : List JsonValue) (x : JsonValue)
    (hx : x ∈ l) (hnn : ∀ n, x ≠ JsonValue.num n) :
    loadavgAll l ≠ Except.ok true := by
  induction l with
  | nil => cases hx
  | cons y ys ih =>
    rcases List.mem_cons.mp hx with heq | hmem
    · subst heq
      cases x with
      | num n => exact absurd rfl (hnn n)
      | null => simp [loadavgAll]
      | bool b => simp [loadavgAll]
      | str s => simp [loadavgAll]
      | arr l => simp [loadavgAll]
      | obj f => simp [loadavgAll]
    · cases y with
      | num n =>
        cases n with
        | none => simp [loadavgAll]
        | some v =>
          by_cases hv : v > 65000
          · simpa [loadavgAll, hv] using ih hmem
          · simp [loadavgAll, hv]
      | null => simp [loadavgAll]
      | bool b => simp [loadavgAll]
      | str s => simp [loadavgAll]
      | arr l => simp [loadavgAll]
      | obj f => simp [loadavgAll]

/-- When every element before a non-`i64` number passes the threshold, the
lazy all-check reaches that number and panics on `as_i64().unwrap()`. -/
theorem loadavgAll_error_of_reached (l1 l2 : List JsonValue)
    (h : ∀ x ∈ l1, ∃ v, x = JsonValue.num (some v) ∧ v > 65000) :
    loadavgAll (l1 ++ JsonValue.num none :: l2) = Except.error () := by
  induction l1 with
  | nil => simp [loadavgAll]
  | cons x xs ih =>
    obtain ⟨v, rfl, hv⟩ := h x (List.mem_cons_self x xs)
    simpa [loadavgAll, hv] using ih fun y hy => h y (List.mem_cons_of_mem _ hy)

/-! ### Helper lemmas about token extraction -/

/-- The empty body matches nowhere. -/
theorem matchTokenHere_nil : matchTokenHere [] = none := by
  simp [matchTokenHere, tokenLit]

/-- `findToken` returns the leftmost match: a match at position `i` with no
match at any earlier position is the result. -/
theorem findToken_eq_of_match (s : List Char) (i : Nat) (t : List Char)
    (hm : matchTokenHere (s.drop i) = some t)
    (hb : ∀ j, j < i → matchTokenHere (s.drop j) = none) :
    findToken s = some t := by
  induction s generalizing i with
  | nil =>
    rw [List.drop_nil, matchTokenHere_nil] at hm
    cases hm
  | cons c rest ih =>
    cases i with
    | zero =>
      rw [List.drop_zero] at hm
      simp [findToken, hm]
    | succ j =>
      have h0 : matchTokenHere (c :: rest) = none := by
        simpa using hb 0 (Nat.succ_pos j)
      have hm' : matchTokenHere (rest.drop j) = some t := by
        simpa using hm
      simp only [findToken, h0]
      exact ih j hm' fun k hk => by simpa using hb (k + 1) (Nat.succ_lt_succ hk)

/-- When no position of the body matches, `findToken` fails. -/
theorem findToken_none (s : List Char)
    (h : ∀ j, j < s.length → matchTokenHere (s.drop j) = none) :
    findToken s = none := by
  induction s with
  | nil => rfl
  | cons c rest ih =>
    have h0 : matchTokenHere (c :: rest) = none := by
      simpa using h 0 (Nat.succ_pos _)
    simp only [findToken, h0]
    exact ih fun j hj => by simpa using h (j + 1) (Nat.succ_lt_succ hj)

/-! ### Case analysis of a whole run -/

/-- The reboot handshake either aborts on a missing token after the page GET,
or issues the confirmation POST carrying exactly the extracted token. -/
theorem rebootPhase_cases (p : String) :
    (findToken p.data = none ∧ rebootPhase p = ⟨[Request.rebootGet], Outcome.panicked⟩)
    ∨ (∃ t, findToken p.data = some t
        ∧ rebootPhase p
            = ⟨[Request.rebootGet, Request.rebootCall (String.mk t)], Outcome.ok⟩) := by
  unfold rebootPhase
  cases h : findToken p.data with
  | none => exact Or.inl ⟨rfl, rfl⟩
  | some t => exact Or.inr ⟨t, rfl, rfl⟩

/-- The threshold stage either stays silent, panics with no further request,
or hands over to the reboot handshake. -/
theorem thresholdPhase_cases (env : ResponseEnv) (v : Int) :
    thresholdPhase env v = ⟨[], Outcome.ok⟩
    ∨ thresholdPhase env v = ⟨[], Outcome.panicked⟩
    ∨ thresholdPhase env v = rebootPhase env.rebootPage := by
  unfold thresholdPhase
  split
  · split
    · split
      · exact Or.inr (Or.inl rfl)
      · exact Or.inr (Or.inr rfl)
      · exact Or.inl rfl
    · exact Or.inl rfl
  · exact Or.inl rfl

/-- Every run issues the login POST and the status GET and then either stops
there, or panics right after the reboot-page GET for want of a token, or
completes the handshake with the token extracted from the reboot page. -/
theorem statusRun_cases (env : ResponseEnv) :
    (statusRun env).requests = [Request.login, Request.statusFetch]
    ∨ ((statusRun env).requests = [Request.login, Request.statusFetch, Request.rebootGet]
        ∧ (statusRun env).outcome = Outcome.panicked
        ∧ findToken env.rebootPage.data = none)
    ∨ (∃ t, findToken env.rebootPage.data = some t
        ∧ (statusRun env).requests
            = [Request.login, Request.statusFetch, Request.rebootGet,
                Request.rebootCall (String.mk t)]
        ∧ (statusRun env).outcome = Outcome.ok) := by
  unfold statusRun
  split
  · split
    · exact Or.inl rfl
    · rename_i v heq
      rcases thresholdPhase_cases env v with h | h | h
      · rw [h]; exact Or.inl rfl
      · rw [h]; exact Or.inl rfl
      · rw [h]
        rcases rebootPhase_cases env.rebootPage with ⟨hn, hr⟩ | ⟨t, ht, hr⟩
        · rw [hr]; exact Or.inr (Or.inl ⟨rfl, rfl, hn⟩)
        · rw [hr]; exact Or.inr (Or.inr ⟨t, ht, rfl, rfl⟩)
  · exact Or.inl rfl

/-! ### Reduction lemmas -/

/-- Unfold one run when `cpuusage` is a string that splits and parses. -/
theorem statusRun_eq_of_cpu (env : ResponseEnv) (cpu : String) (v : Int)
    (hc : List.lookup "cpuusage" env.status = some (JsonValue.str cpu))
    (he : cpuExtract cpu = Except.ok v) :
    statusRun env
      = ⟨[Request.login, Request.statusFetch] ++ (thresholdPhase env v).requests,
          (thresholdPhase env v).outcome⟩ := by
  unfold statusRun
  simp only [hc, he]

/-- A run whose `cpuusage` string fails to split or parse panics right after
the status fetch. -/
theorem statusRun_panic_of_cpu (env : ResponseEnv) (cpu : String)
    (hc : List.lookup "cpuusage" env.status = some (JsonValue.str cpu))
    (he : cpuExtract cpu = Except.error ()) :
    statusRun env = ⟨[Request.login, Request.statusFetch], Outcome.panicked⟩ := by
  unfold statusRun
  simp only [hc, he]

/-- A run with no `cpuusage` key falls through to `Ok(())`. -/
theorem statusRun_silent_of_no_cpu (env : ResponseEnv)
    (hc : List.lookup "cpuusage" env.status = none) :
    statusRun env = ⟨[Request.login, Request.statusFetch], Outcome.ok⟩ := by
  unfold statusRun
  simp only [hc]

/-- A run whose `cpuusage` value is not a string falls through to `Ok(())`. -/
theorem statusRun_silent_of_nonstr_cpu (env : ResponseEnv) (w : JsonValue)
    (hc : List.lookup "cpuusage" env.status = some w)
    (hw : ∀ s, w ≠ JsonValue.str s) :
    statusRun env = ⟨[Request.login, Request.statusFetch], Outcome.ok⟩ := by
  unfold statusRun
  rw [hc]
  cases w with
  | str s => exact absurd rfl (hw s)
  | null => rfl
  | bool b => rfl
  | num n => rfl
  | arr l => rfl
  | obj f => rfl

/-- CPU usage at or below 20 short-circuits the threshold stage. -/
theorem thresholdPhase_low (env : ResponseEnv) (v : Int) (hv : ¬v > 20) :
    thresholdPhase env v = ⟨[], Outcome.ok⟩ := by
  unfold thresholdPhase
  rw [if_neg hv]

/-- With high CPU but no `loadavg` array, the threshold stage stays silent. -/
theorem thresholdPhase_noarr (env : ResponseEnv) (v : Int) (hv : v > 20)
    (hl : ∀ l, List.lookup "loadavg" env.status ≠ some (JsonValue.arr l)) :
    thresholdPhase env v = ⟨[], Outcome.ok⟩ := by
  unfold thresholdPhase
  rw [if_pos hv]
  split
  · rename_i l heq
    exact absurd heq (hl l)
  · rfl

/-- With high CPU and a `loadavg` array, the threshold stage is decided by
the lazy all-check. -/
theorem thresholdPhase_of_loadavg (env : ResponseEnv) (v : Int) (l : List JsonValue)
    (hv : v > 20)
    (hl : List.lookup "loadavg" env.status = some (JsonValue.arr l)) :
    thresholdPhase env v
      = match loadavgAll l with
        | Except.error _ => ⟨[], Outcome.panicked⟩
        | Except.ok true => rebootPhase env.rebootPage
        | Except.ok false => ⟨[], Outcome.ok⟩ := by
  unfold thresholdPhase
  rw [if_pos hv, hl]

/-- All-check true: the threshold stage hands over to the handshake. -/
theorem thresholdPhase_reboot (env : ResponseEnv) (v : Int) (l : List JsonValue)
    (hv : v > 20)
    (hl : List.lookup "loadavg" env.status = some (JsonValue.arr l))
    (ht : loadavgAll l = Except.ok true) :
    thresholdPhase env v = rebootPhase env.rebootPage := by
  rw [thresholdPhase_of_loadavg env v l hv hl, ht]

/-- All-check false: the threshold stage stays silent. -/
theorem thresholdPhase_silent (env : ResponseEnv) (v : Int) (l : List JsonValue)
    (hv : v > 20)
    (hl : List.lookup "loadavg" env.status = some (JsonValue.arr l))
    (ht : loadavgAll l = Except.ok false) :
    thresholdPhase env v = ⟨[], Outcome.ok⟩ := by
  rw [thresholdPhase_of_loadavg env v l hv hl, ht]

/-- All-check panic: the run aborts with no further request. -/
theorem thresholdPhase_panic (env : ResponseEnv) (v : Int) (l : List JsonValue)
    (hv : v > 20)
    (hl : List.lookup "loadavg" env.status = some (JsonValue.arr l))
    (ht : loadavgAll l = Except.error ()) :
    thresholdPhase env v = ⟨[], Outcome.panicked⟩ := by
  rw [thresholdPhase_of_loadavg env v l hv hl, ht]

/-- Handshake with no token on the page: GET, then panic. -/
theorem rebootPhase_none (p : String) (h : findToken p.data = none) :
    rebootPhase p = ⟨[Request.rebootGet], Outcome.panicked⟩ := by
  unfold rebootPhase
  rw [h]

/-- Handshake with a token on the page: GET, then confirmation POST. -/
theorem rebootPhase_some (p : String) (t : List Char)
    (h : findToken p.data = some t) :
    rebootPhase p
      = ⟨[Request.rebootGet, Request.rebootCall (String.mk t)], Outcome.ok⟩ := by
  unfold rebootPhase
  rw [h]

/-- Over an array of `i64`-representable numbers the all-check never panics. -/
theorem loadavgAll_ok_of_num (l : List JsonValue)
    (h : ∀ x ∈ l, ∃ w, x = JsonValue.num (some w)) :
    loadavgAll l = Except.ok true ∨ loadavgAll l = Except.ok false := by
  induction l with
  | nil => exact Or.inl rfl
  | cons x xs ih =>
    obtain ⟨w, rfl⟩ := h x (List.mem_cons_self x xs)
    by_cases hw : w > 65000
    · simpa [loadavgAll, hw] using ih fun y hy => h y (List.mem_cons_of_mem _ hy)
    · simp [loadavgAll, hw]

/-- A run over a reboot page with no token never issues the confirmation
POST, and panics whenever it got as far as the reboot-page GET. -/
theorem statusRun_no_call_of_no_token (env : ResponseEnv)
    (h : findToken env.rebootPage.data = none) :
    (∀ tk, Request.rebootCall tk ∉ (statusRun env).requests)
    ∧ (Request.rebootGet ∈ (statusRun env).requests →
        (statusRun env).outcome = Outcome.panicked) := by
  rcases statusRun_cases env with hr | ⟨hr, ho, _⟩ | ⟨t, ht, _, _⟩
  · constructor
    · intro tk hmem
      rw [hr] at hmem
      simp at hmem
    · intro hmem
      rw [hr] at hmem
      simp at hmem
  · constructor
    · intro tk hmem
      rw [hr] at hmem
      simp at hmem
    · intro _
      exact ho
  · rw [h] at ht
    cases ht

/-- A run over a reboot page whose leftmost token is `t` submits exactly
`t` in any confirmation POST it issues. -/
theorem statusRun_call_token (env : ResponseEnv) (t : List Char)
    (h : findToken env.rebootPage.data = some t) :
    ∀ tk, Request.rebootCall tk ∈ (statusRun env).requests → tk = String.mk t := by
  intro tk hmem
  rcases statusRun_cases env with hr | ⟨hr, _, _⟩ | ⟨t2, ht2, hr, _⟩
  · rw [hr] at hmem
    simp at hmem
  · rw [hr] at hmem
    simp at hmem
  · rw [h] at ht2
    injection ht2 with ht2
    subst ht2
    rw [hr] at hmem
    simpa using hmem

/-! ### The claims -/

/-- C1: for every status response in which `cpuusage` parses to an integer
strictly greater than 20 and `loadavg` is an array of `i64`-representable
integer-valued JSON numbers (and the reboot page carries a token, so the
handshake can complete), the reboot handshake — the reboot-page GET followed
by the confirmation POST — is performed if and only if every element of the
`loadavg` array strictly exceeds 65000. -/
theorem c1_reboot_iff_all_load_high (env : ResponseEnv) (cpu : String) (v : Int)
    (l : List JsonValue) (t : List Char)
    (hc : List.lookup "cpuusage" env.status = some (JsonValue.str cpu))
    (he : cpuExtract cpu = Except.ok v) (hv : v > 20)
    (hl : List.lookup "loadavg" env.status = some (JsonValue.arr l))
    (hnum : ∀ x ∈ l, ∃ w, x = JsonValue.num (some w))
    (htok : findToken env.rebootPage.data = some t) :
    (Request.rebootGet ∈ (statusRun env).requests
        ∧ ∃ tk, Request.rebootCall tk ∈ (statusRun env).requests)
      ↔ ∀ x ∈ l, ∀ w, x = JsonValue.num (some w) → w > 65000 := by
  rw [statusRun_eq_of_cpu env cpu v hc he]
  rcases loadavgAll_ok_of_num l hnum with hall | hall
  · rw [thresholdPhase_reboot env v l hv hl hall, rebootPhase_some _ t htok]
    constructor
    · intro _
      exact (loadavgAll_ok_true_iff l hnum).mp hall
    · intro _
      exact ⟨by simp, String.mk t, by simp⟩
  · rw [thresholdPhase_silent env v l hv hl hall]
    constructor
    · intro hmem
      obtain ⟨tk, htk⟩ := hmem.2
      simp at htk
    · intro hforall
      have := (loadavgAll_ok_true_iff l hnum).mpr hforall
      rw [hall] at this
      cases this

/-- C1 witness: CPU 45, loadavg `[70000, 68000, 66000]`, token on the page. -/
theorem c1_reboot_iff_all_load_high_witness :
    (Request.rebootGet ∈ (statusRun
          ⟨[("cpuusage", JsonValue.str "45\n"),
            ("loadavg", JsonValue.arr [JsonValue.num (some 70000),
                JsonValue.num (some 68000), JsonValue.num (some 66000)])],
            String.mk ("token: ".data ++ [squote]
              ++ "0123456789abcdef0123456789abcdef".data ++ [squote])⟩).requests
        ∧ ∃ tk, Request.rebootCall tk ∈ (statusRun
          ⟨[("cpuusage", JsonValue.str "45\n"),
            ("loadavg", JsonValue.arr [JsonValue.num (some 70000),
                JsonValue.num (some 68000), JsonValue.num (some 66000)])],
            String.mk ("token: ".data ++ [squote]
              ++ "0123456789abcdef0123456789abcdef".data ++ [squote])⟩).requests)
      ↔ ∀ x ∈ [JsonValue.num (some 70000), JsonValue.num (some 68000),
            JsonValue.num (some 66000)],
          ∀ w, x = JsonValue.num (some w) → w > 65000 :=
  c1_reboot_iff_all_load_high _ "45\n" 45 _ ("0123456789abcdef0123456789abcdef".data)
    rfl rfl (by omega) rfl
    (by
      intro x hx
      rcases List.mem_cons.mp hx with rfl | hx
      · exact ⟨70000, rfl⟩
      rcases List.mem_cons.mp hx with rfl | hx
      · exact ⟨68000, rfl⟩
      rcases List.mem_cons.mp hx with rfl | hx
      · exact ⟨66000, rfl⟩
      cases hx)
    rfl

/-- C2: when `cpuusage` parses to an integer at or below 20, the run stops
after the login POST and the status GET — no reboot-page GET, no
confirmation POST, regardless of `loadavg` — and completes successfully. -/
theorem c2_low_cpu_no_reboot (env : ResponseEnv) (cpu : String) (v : Int)
    (hc : List.lookup "cpuusage" env.status = some (JsonValue.str cpu))
    (he : cpuExtract cpu = Except.ok v) (hv : v ≤ 20) :
    (statusRun env).requests = [Request.login, Request.statusFetch]
    ∧ (statusRun env).outcome = Outcome.ok
    ∧ Request.rebootGet ∉ (statusRun env).requests
    ∧ ∀ tk, Request.rebootCall tk ∉ (statusRun env).requests := by
  rw [statusRun_eq_of_cpu env cpu v hc he, thresholdPhase_low env v (by omega)]
  refine ⟨rfl, rfl, by decide, ?_⟩
  intro tk hmem
  simp at hmem

/-- C2 witness: CPU 15 with a pathological `loadavg` that would panic the
all-check were it ever inspected. -/
theorem c2_low_cpu_no_reboot_witness :
    (statusRun ⟨[("cpuusage", JsonValue.str "15\n"),
          ("loadavg", JsonValue.arr [JsonValue.num none])], ""⟩).requests
        = [Request.login, Request.statusFetch]
    ∧ (statusRun ⟨[("cpuusage", JsonValue.str "15\n"),
          ("loadavg", JsonValue.arr [JsonValue.num none])], ""⟩).outcome = Outcome.ok
    ∧ Request.rebootGet ∉ (statusRun ⟨[("cpuusage", JsonValue.str "15\n"),
          ("loadavg", JsonValue.arr [JsonValue.num none])], ""⟩).requests
    ∧ ∀ tk, Request.rebootCall tk ∉ (statusRun ⟨[("cpuusage", JsonValue.str "15\n"),
          ("loadavg", JsonValue.arr [JsonValue.num none])], ""⟩).requests :=
  c2_low_cpu_no_reboot _ "15\n" 15 rfl rfl (by omega)

/-- C3: when `cpuusage` parses above 20 and `loadavg` is present as the
empty array, the all-check is vacuously true and the reboot handshake is
performed (the page GET, and — the page carrying a token — the POST). -/
theorem c3_empty_loadavg_reboots (env : ResponseEnv) (cpu : String) (v : Int)
    (t : List Char)
    (hc : List.lookup "cpuusage" env.status = some (JsonValue.str cpu))
    (he : cpuExtract cpu = Except.ok v) (hv : v > 20)
    (hl : List.lookup "loadavg" env.status = some (JsonValue.arr []))
    (htok : findToken env.rebootPage.data = some t) :
    loadavgAll [] = Except.ok true
    ∧ (statusRun env).requests
        = [Request.login, Request.statusFetch, Request.rebootGet,
            Request.rebootCall (String.mk t)]
    ∧ (statusRun env).outcome = Outcome.ok := by
  rw [statusRun_eq_of_cpu env cpu v hc he,
    thresholdPhase_reboot env v [] hv hl rfl, rebootPhase_some _ t htok]
  exact ⟨rfl, rfl, rfl⟩

/-- C3 witness: CPU 45, `loadavg = []`, token on the page. -/
theorem c3_empty_loadavg_reboots_witness :
    loadavgAll [] = Except.ok true
    ∧ (statusRun ⟨[("cpuusage", JsonValue.str "45\n"),
          ("loadavg", JsonValue.arr [])],
          String.mk ("token: ".data ++ [squote]
            ++ "0123456789abcdef0123456789abcdef".data ++ [squote])⟩).requests
        = [Request.login, Request.statusFetch, Request.rebootGet,
            Request.rebootCall (String.mk ("0123456789abcdef0123456789abcdef".data))]
    ∧ (statusRun ⟨[("cpuusage", JsonValue.str "45\n"),
          ("loadavg", JsonValue.arr [])],
          String.mk ("token: ".data ++ [squote]
            ++ "0123456789abcdef0123456789abcdef".data ++ [squote])⟩).outcome
        = Outcome.ok :=
  c3_empty_loadavg_reboots _ "45\n" 45 ("0123456789abcdef0123456789abcdef".data)
    rfl rfl (by omega) rfl rfl

/-- C9: when `cpuusage` parses above 20 but the `loadavg` key is absent or
its value is not an array, no reboot request is issued and the run completes
successfully (exit code 0). -/
theorem c9_missing_loadavg_silent (env : ResponseEnv) (cpu : String) (v : Int)
    (hc : List.lookup "cpuusage" env.status = some (JsonValue.str cpu))
    (he : cpuExtract cpu = Except.ok v) (hv : v > 20)
    (hl : ∀ l, List.lookup "loadavg" env.status ≠ some (JsonValue.arr l)) :
    (statusRun env).requests = [Request.login, Request.statusFetch]
    ∧ (statusRun env).outcome = Outcome.ok
    ∧ Request.rebootGet ∉ (statusRun env).requests
    ∧ ∀ tk, Request.rebootCall tk ∉ (statusRun env).requests := by
  rw [statusRun_eq_of_cpu env cpu v hc he, thresholdPhase_noarr env v hv hl]
  refine ⟨rfl, rfl, by decide, ?_⟩
  intro tk hmem
  simp at hmem

/-- C9 witness: CPU 45 with no `loadavg` key at all. -/
theorem c9_missing_loadavg_silent_witness :
    (statusRun ⟨[("cpuusage", JsonValue.str "45\n")], ""⟩).requests
        = [Request.login, Request.statusFetch]
    ∧ (statusRun ⟨[("cpuusage", JsonValue.str "45\n")], ""⟩).outcome = Outcome.ok
    ∧ Request.rebootGet ∉ (statusRun ⟨[("cpuusage", JsonValue.str "45\n")], ""⟩).requests
    ∧ ∀ tk, Request.rebootCall tk
        ∉ (statusRun ⟨[("cpuusage", JsonValue.str "45\n")], ""⟩).requests :=
  c9_missing_loadavg_silent _ "45\n" 45 rfl rfl (by omega) (fun l h => by cases h)

/-- C4 counterexample: with CPU parsing to 45 and
`loadavg = [non-i64-number, "x"]`, the array does contain a non-number
element, yet the all-check does not evaluate to `false` — it panics on the
earlier non-`i64` number before ever reaching the string element. -/
theorem c4_counterexample :
    cpuExtract "45\n" = Except.ok 45
    ∧ JsonValue.str "x" ∈ [JsonValue.num none, JsonValue.str "x"]
    ∧ loadavgAll [JsonValue.num none, JsonValue.str "x"] ≠ Except.ok false
    ∧ (statusRun ⟨[("cpuusage", JsonValue.str "45\n"),
          ("loadavg", JsonValue.arr [JsonValue.num none, JsonValue.str "x"])],
          ""⟩).outcome = Outcome.panicked :=
  ⟨rfl, List.mem_cons_of_mem _ (List.mem_cons_self _ _),
    fun h => Except.noConfusion h, rfl⟩

/-- C4 (amended): with CPU above 20, a non-number element in the `loadavg`
array keeps the all-check from ever evaluating to `true` — it evaluates to
`false`, or panics on an earlier non-`i64` number — and in either case no
reboot-page GET and no confirmation POST is issued. -/
theorem c4_nonnum_blocks_reboot (env : ResponseEnv) (cpu : String) (v : Int)
    (l : List JsonValue) (x : JsonValue)
    (hc : List.lookup "cpuusage" env.status = some (JsonValue.str cpu))
    (he : cpuExtract cpu = Except.ok v) (hv : v > 20)
    (hl : List.lookup "loadavg" env.status = some (JsonValue.arr l))
    (hx : x ∈ l) (hnn : ∀ n, x ≠ JsonValue.num n) :
    loadavgAll l ≠ Except.ok true
    ∧ Request.rebootGet ∉ (statusRun env).requests
    ∧ ∀ tk, Request.rebootCall tk ∉ (statusRun env).requests := by
  have hne := loadavgAll_ne_true_of_nonnum l x hx hnn
  have hbase : (thresholdPhase env v).requests = [] := by
    cases hall : loadavgAll l with
    | error e =>
      cases e
      rw [thresholdPhase_panic env v l hv hl hall]
    | ok b =>
      cases b with
      | true => exact absurd hall hne
      | false => rw [thresholdPhase_silent env v l hv hl hall]
  refine ⟨hne, ?_, ?_⟩
  · rw [statusRun_eq_of_cpu env cpu v hc he]
    simp [hbase]
  · intro tk
    rw [statusRun_eq_of_cpu env cpu v hc he]
    simp [hbase]

/-- C4 witness: CPU 45, `loadavg = ["x"]`. -/
theorem c4_nonnum_blocks_reboot_witness :
    loadavgAll [JsonValue.str "x"] ≠ Except.ok true
    ∧ Request.rebootGet ∉ (statusRun ⟨[("cpuusage", JsonValue.str "45\n"),
          ("loadavg", JsonValue.arr [JsonValue.str "x"])], ""⟩).requests
    ∧ ∀ tk, Request.rebootCall tk ∉ (statusRun ⟨[("cpuusage", JsonValue.str "45\n"),
          ("loadavg", JsonValue.arr [JsonValue.str "x"])], ""⟩).requests :=
  c4_nonnum_blocks_reboot _ "45\n" 45 _ (JsonValue.str "x") rfl rfl (by omega) rfl
    (List.mem_cons_self _ _) (fun n h => JsonValue.noConfusion h)

/-- C7 counterexample: with `cpuusage` absent from the status JSON the run
does not panic — it completes successfully, issuing nothing beyond the
login POST and the status GET. -/
theorem c7_counterexample :
    List.lookup "cpuusage" [("loadavg", JsonValue.arr [])] = (none : Option JsonValue)
    ∧ (statusRun ⟨[("loadavg", JsonValue.arr [])], ""⟩).outcome = Outcome.ok
    ∧ (statusRun ⟨[("loadavg", JsonValue.arr [])], ""⟩).outcome ≠ Outcome.panicked :=
  ⟨rfl, rfl, fun h => Outcome.noConfusion h⟩

/-- C7 (amended): the `cpuusage` extraction panics exactly in the in-branch
failure cases — the field is present as a string with no newline to split
on, or with a leading segment that does not parse as an `i32`; when the
field is absent, or present but not a string, the run does not panic: it
falls through and completes successfully with no further requests. -/
theorem c7_cpu_extract_behaviour :
    (∀ (env : ResponseEnv) (cpu : String),
        List.lookup "cpuusage" env.status = some (JsonValue.str cpu) →
        cpuExtract cpu = Except.error () →
        statusRun env = ⟨[Request.login, Request.statusFetch], Outcome.panicked⟩)
    ∧ (∀ s : String, splitOnceChar s.data nlChar = none →
        cpuExtract s = Except.error ())
    ∧ (∀ (s : String) (u r : List Char),
        splitOnceChar s.data nlChar = some (u, r) →
        parseI32 (String.mk u) = none →
        cpuExtract s = Except.error ())
    ∧ (∀ env : ResponseEnv, List.lookup "cpuusage" env.status = none →
        statusRun env = ⟨[Request.login, Request.statusFetch], Outcome.ok⟩)
    ∧ (∀ (env : ResponseEnv) (w : JsonValue),
        List.lookup "cpuusage" env.status = some w →
        (∀ s, w ≠ JsonValue.str s) →
        statusRun env = ⟨[Request.login, Request.statusFetch], Outcome.ok⟩) := by
  refine ⟨statusRun_panic_of_cpu, ?_, ?_, statusRun_silent_of_no_cpu,
    statusRun_silent_of_nonstr_cpu⟩
  · intro s hs
    unfold cpuExtract
    simp only [hs]
  · intro s u r hs hp
    unfold cpuExtract
    simp only [hs, hp]

/-- C7 witness: `cpuusage = "45"` (no newline) panics the run. -/
theorem c7_cpu_extract_behaviour_witness :
    statusRun ⟨[("cpuusage", JsonValue.str "45")], ""⟩
      = ⟨[Request.login, Request.statusFetch], Outcome.panicked⟩ :=
  c7_cpu_extract_behaviour.1 _ "45" rfl rfl

/-- C8 counterexample: `loadavg = [1, non-i64-number]` with CPU parsing
to 45: the array contains a number not representable as `i64`, yet the run
does not panic — the lazy all-check stops at the first element (1 ≤ 65000)
and never evaluates the non-`i64` number. -/
theorem c8_counterexample :
    JsonValue.num none ∈ [JsonValue.num (some 1), JsonValue.num none]
    ∧ (statusRun ⟨[("cpuusage", JsonValue.str "45\n"),
          ("loadavg", JsonValue.arr [JsonValue.num (some 1), JsonValue.num none])],
          ""⟩).outcome = Outcome.ok :=
  ⟨List.mem_cons_of_mem _ (List.mem_cons_self _ _), rfl⟩

/-- C8 (amended): a non-`i64`-representable number element panics the run
when the lazy all-check reaches it, that is, when every earlier element is
an `i64` number strictly above 65000; the run then aborts with no request
beyond the login POST and the status GET. -/
theorem c8_noni64_panics_when_reached (env : ResponseEnv) (cpu : String) (v : Int)
    (l1 l2 : List JsonValue)
    (hc : List.lookup "cpuusage" env.status = some (JsonValue.str cpu))
    (he : cpuExtract cpu = Except.ok v) (hv : v > 20)
    (hl : List.lookup "loadavg" env.status
        = some (JsonValue.arr (l1 ++ JsonValue.num none :: l2)))
    (hpre : ∀ x ∈ l1, ∃ w, x = JsonValue.num (some w) ∧ w > 65000) :
    (statusRun env).outcome = Outcome.panicked
    ∧ (statusRun env).requests = [Request.login, Request.statusFetch] := by
  have herr := loadavgAll_error_of_reached l1 l2 hpre
  rw [statusRun_eq_of_cpu env cpu v hc he, thresholdPhase_panic env v _ hv hl herr]
  exact ⟨rfl, rfl⟩

/-- C8 witness: CPU 45, `loadavg = [70000, non-i64-number]`. -/
theorem c8_noni64_panics_when_reached_witness :
    (statusRun ⟨[("cpuusage", JsonValue.str "45\n"),
          ("loadavg", JsonValue.arr
            [JsonValue.num (some 70000), JsonValue.num none])], ""⟩).outcome
        = Outcome.panicked
    ∧ (statusRun ⟨[("cpuusage", JsonValue.str "45\n"),
          ("loadavg", JsonValue.arr
            [JsonValue.num (some 70000), JsonValue.num none])], ""⟩).requests
        = [Request.login, Request.statusFetch] :=
  c8_noni64_panics_when_reached _ "45\n" 45 [JsonValue.num (some 70000)] [] rfl rfl
    (by omega) rfl
    (by
      intro x hx
      rcases List.mem_cons.mp hx with rfl | hx
      · exact ⟨70000, rfl, by omega⟩
      · cases hx)

/-- C5: credential resolution is all-CLI or all-file, with no merging.
Under clap's positional-argument invariant (the third positional can only be
present when the first two are), a complete CLI triple yields a server built
from exactly those three values with `config.toml` never read (the result
does not depend on the file, and the file-read flag is `false`); an
incomplete CLI set makes the run read `config.toml` and use its `server`
section in full (or fail when the file does not load). -/
theorem c5_credential_resolution (m : ArgMatches)
    (hclap : (m.user.isSome → m.host.isSome) ∧ (m.password.isSome → m.user.isSome)) :
    (∀ h u p, m.host = some h → m.user = some u → m.password = some p →
        ∀ cfg, resolveServer m cfg = ResolveResult.ok ⟨h, u, p⟩ false)
    ∧ (¬(m.host.isSome ∧ m.user.isSome ∧ m.password.isSome) →
        (∀ c, resolveServer m (some c) = ResolveResult.ok c.server true)
        ∧ resolveServer m none = ResolveResult.configError) := by
  constructor
  · intro h u p hh hu hp cfg
    unfold resolveServer tryFromMatches
    simp only [hp, hh, hu]
  · intro hincomplete
    have hpnone : m.password = none := by
      cases hpw : m.password with
      | none => rfl
      | some p =>
        have hu : m.user.isSome := hclap.2 (by rw [hpw]; rfl)
        have hh : m.host.isSome := hclap.1 hu
        exact absurd ⟨hh, hu, by rw [hpw]; rfl⟩ hincomplete
    constructor
    · intro c
      unfold resolveServer tryFromMatches
      simp only [hpnone]
    · unfold resolveServer tryFromMatches
      simp only [hpnone]

/-- C5 witness: a complete CLI triple resolves without the file even being
loadable; an empty CLI resolves entirely from the file. -/
theorem c5_credential_resolution_witness :
    resolveServer ⟨some "http://r", some "root", some "pw"⟩ none
        = ResolveResult.ok ⟨"http://r", "root", "pw"⟩ false
    ∧ resolveServer ⟨none, none, none⟩ (some ⟨⟨"http://f", "fu", "fp"⟩⟩)
        = ResolveResult.ok ⟨"http://f", "fu", "fp"⟩ true :=
  ⟨(c5_credential_resolution ⟨some "http://r", some "root", some "pw"⟩
      ⟨fun _ => rfl, fun _ => rfl⟩).1 _ _ _ rfl rfl rfl none,
    ((c5_credential_resolution ⟨none, none, none⟩
      ⟨fun h => h, fun h => h⟩).2 (by simp)).1 ⟨⟨"http://f", "fu", "fp"⟩⟩⟩

/-- C6: token extraction.  First part: a body with exactly one matching
position (a unique substring `token: '<32 lowercase hex>'`) yields exactly
its 32 captured characters, and any confirmation POST issued over that body
submits exactly that value.  Second part: a body with no matching position
makes extraction fail; the run then never issues the confirmation POST, and
aborts in panic whenever it got as far as the reboot-page GET. -/
theorem c6_token_extraction :
    (∀ (s : List Char) (i : Nat) (t : List Char),
        matchTokenHere (s.drop i) = some t →
        (∀ j, j < s.length → matchTokenHere (s.drop j) ≠ none → j = i) →
        findToken s = some t
        ∧ ∀ env : ResponseEnv, env.rebootPage.data = s →
            ∀ tk, Request.rebootCall tk ∈ (statusRun env).requests →
              tk = String.mk t)
    ∧ (∀ s : List Char,
        (∀ j, j < s.length → matchTokenHere (s.drop j) = none) →
        findToken s = none
        ∧ ∀ env : ResponseEnv, env.rebootPage.data = s →
            (∀ tk, Request.rebootCall tk ∉ (statusRun env).requests)
            ∧ (Request.rebootGet ∈ (statusRun env).requests →
                (statusRun env).outcome = Outcome.panicked)) := by
  constructor
  · intro s i t hm huniq
    have hlen : i < s.length := by
      by_contra hge
      push_neg at hge
      rw [List.drop_eq_nil_of_le hge, matchTokenHere_nil] at hm
      cases hm
    have hfind : findToken s = some t := by
      refine findToken_eq_of_match s i t hm ?_
      intro j hj
      by_contra hne
      have := huniq j (lt_trans hj hlen) hne
      omega
    refine ⟨hfind, fun env henv tk htk => ?_⟩
    exact statusRun_call_token env t (by rw [henv]; exact hfind) tk htk
  · intro s hnone
    have hfind : findToken s = none := findToken_none s hnone
    refine ⟨hfind, fun env henv => ?_⟩
    exact statusRun_no_call_of_no_token env (by rw [henv]; exact hfind)

/-- C6 witness: the body `token: '0123456789abcdef0123456789abcdef'` has its
unique match at position 0 and extraction returns those 32 characters. -/
theorem c6_token_extraction_witness :
    findToken ("token: ".data ++ [squote]
        ++ "0123456789abcdef0123456789abcdef".data ++ [squote])
      = some ("0123456789abcdef0123456789abcdef".data) :=
  (c6_token_extraction.1
    ("token: ".data ++ [squote] ++ "0123456789abcdef0123456789abcdef".data ++ [squote])
    0 ("0123456789abcdef0123456789abcdef".data) (by decide) (by decide)).1

/-- The six uppercase hex letters all fall outside the `[\da-f]` class. -/
theorem classChar_upper_false : ∀ c ∈ "ABCDEF".data, classChar c = false := by
  decide

/-- C10: the token pattern accepts only lowercase hex.  For a body in which
every occurrence of the literal `token: '` is followed by a 32-character
window containing an uppercase hex letter, extraction finds no match; the
run then never issues the confirmation POST, and aborts in panic whenever it
got as far as the reboot-page GET. -/
theorem c10_uppercase_token_rejected (s : List Char)
    (hupper : ∀ i, i < s.length → (s.drop i).take 8 = tokenLit →
        ∃ c ∈ (s.drop (i + 8)).take 32, c ∈ "ABCDEF".data) :
    findToken s = none
    ∧ ∀ env : ResponseEnv, env.rebootPage.data = s →
        (∀ tk, Request.rebootCall tk ∉ (statusRun env).requests)
        ∧ (Request.rebootGet ∈ (statusRun env).requests →
            (statusRun env).outcome = Outcome.panicked) := by
  have hnone : ∀ j, j < s.length → matchTokenHere (s.drop j) = none := by
    intro j hj
    by_cases htake : (s.drop j).take 8 = tokenLit
    · obtain ⟨c, hcw, hcu⟩ := hupper j hj htake
      have hcls := classChar_upper_false c hcu
      have hmem : c ∈ ((s.drop j).drop 8).take 32 := by
        rw [List.drop_drop]
        exact hcw
      have hall : (((s.drop j).drop 8).take 32).all classChar = false :=
        List.all_eq_false.mpr ⟨c, hmem, by simp [hcls]⟩
      simp only [matchTokenHere, htake, if_true, List.drop_drop, hall,
        Bool.false_eq_true, if_false]
      split
      · split
        · rename_i hlen2 hax
          have hcc : classChar c = true := List.all_eq_true.mp hax c hcw
          rw [hcls] at hcc
          cases hcc
        · rfl
      · rfl
    · simp [matchTokenHere, htake]
  have hfind : findToken s = none := findToken_none s hnone
  refine ⟨hfind, fun env henv => ?_⟩
  exact statusRun_no_call_of_no_token env (by rw [henv]; exact hfind)

/-- C10 witness: a token value with `ABCDEF` in it is not extracted. -/
theorem c10_uppercase_token_rejected_witness :
    findToken ("token: ".data ++ [squote]
        ++ "0123456789ABCDEF0123456789abcdef".data ++ [squote]) = none :=
  (c10_uppercase_token_rejected
    ("token: ".data ++ [squote] ++ "0123456789ABCDEF0123456789abcdef".data ++ [squote])
    (by decide)).1
